import Mathlib

/-!
Verification of the transaction-extraction and association-rule mining core
of the proto-change-miner repository, as a shallow embedding in Lean 4.

Conventions used throughout:
* Python strings are Lean String values; all character-level work is done
  on the underlying character list with structural recursion so that every
  definition evaluates inside the kernel.
* Python float arithmetic on ratios of small integer counters is modelled
  by exact rational arithmetic over Rat.
* Python regular-expression searches of the two anchored alternation
  patterns in lib/categorize.py are modelled by the equivalent
  path-segment membership test (those patterns match exactly when some
  slash-separated segment equals one of the listed words).
* Counter objects are modelled by counting functions over the traversed
  lists; dict key sets are modelled by deduplicated lists (only membership
  in the key set matters to the statements proved here).
-/

/-- Lower-casing of a character list, modelling str.lower on the ASCII
paths handled by the miner. -/
def lowerL (cs : List Char) : List Char := cs.map Char.toLower

/-- Prefix test on character lists, modelling str.startswith. -/
def startsWithL (pre cs : List Char) : Bool := pre.isPrefixOf cs

/-- Suffix test on character lists, modelling str.endswith. -/
def endsWithL (suf cs : List Char) : Bool := suf.isSuffixOf cs

/-- Split of a character list at slashes, modelling str.split on a single
slash (pathlib component structure of the git paths handled here). -/
def splitSeg : List Char → List (List Char)
  | [] => [[]]
  | c :: rest =>
    if c = '/' then [] :: splitSeg rest
    else
      match splitSeg rest with
      | [] => [[c]]
      | seg :: segs => (c :: seg) :: segs

/-- Last slash-separated component of a path, modelling the name attribute
of pathlib on the slash-free-or-interior paths git emits. -/
def basenameL (cs : List Char) : List Char := ((splitSeg cs).reverse).headD cs

/-- Extension of a file name, modelling the pathlib suffix attribute: the
part of the last component from its final dot, empty when the only dot is
leading or trailing or there is none. -/
def pathSuffixL (cs : List Char) : List Char :=
  let nm := basenameL cs
  let k := (nm.reverse.takeWhile (fun c => c ≠ '.')).length
  if k = nm.length then []
  else if k = 0 then []
  else if nm.length - 1 - k = 0 then []
  else nm.drop (nm.length - 1 - k)

/-- Substring test on character lists, modelling the Python in operator on
strings. -/
def containsSub (hay needle : List Char) : Bool :=
  hay.tails.any (fun t => needle.isPrefixOf t)

/-- Fuel-indexed glob matching for the star and question-mark wildcards.
The fuel argument only forces structural recursion; every call site hands
it enough fuel (each recursive step shrinks pattern plus text). -/
def globMatchFuel : Nat → List Char → List Char → Bool
  | 0, _, _ => false
  | _ + 1, [], s => s.isEmpty
  | fuel + 1, p :: ps, s =>
    if p = '*' then
      match s with
      | [] => globMatchFuel fuel ps []
      | c :: cs => globMatchFuel fuel ps (c :: cs) || globMatchFuel fuel (p :: ps) cs
    else
      match s with
      | [] => false
      | c :: cs => (p = '?' || p = c) && globMatchFuel fuel ps cs

/-- Glob matching of a file name against a pattern, modelling
fnmatch.fnmatch as used on the generated-file name patterns of
lib/skip_rules.py (those patterns use no character classes; both sides are
already lower-case at the call sites). -/
def fnmatchName (name pat : String) : Bool :=
  globMatchFuel (pat.toList.length + name.toList.length + 1) pat.toList name.toList

/-- Test-path predicate: the TEST_PAT regular expression of
lib/categorize.py matches exactly when some slash-separated segment of the
(lower-cased) path is test, tests or testing. -/
def testPathMatch (p : List Char) : Bool :=
  (splitSeg p).any (fun s => s == "test".toList || s == "tests".toList || s == "testing".toList)

/-- CI-path predicate: the CI_PAT regular expression of lib/categorize.py
matches exactly when some slash-separated segment of the (lower-cased)
path is ci, pipeline or workflows. -/
def ciPathMatch (p : List Char) : Bool :=
  (splitSeg p).any (fun s => s == "ci".toList || s == "pipeline".toList || s == "workflows".toList)

/-- Implementation-language extensions, EXT_IMPL of lib/categorize.py. -/
def EXT_IMPL : List String :=
  [".go", ".java", ".py", ".js", ".ts", ".tsx", ".jsx", ".kt", ".rb", ".rs", ".php", ".cs"]

/-- Configuration extensions, EXT_CONFIG of lib/categorize.py. -/
def EXT_CONFIG : List String :=
  [".yml", ".yaml", ".json", ".toml", ".ini", ".cfg", ".env"]

/-- Build-tool extensions, EXT_BUILD of lib/categorize.py. -/
def EXT_BUILD : List String := [".gradle", ".xml"]

/-- Infrastructure extensions, EXT_INFRA of lib/categorize.py. -/
def EXT_INFRA : List String := [".tf"]

/-- Membership of an extension in one of the extension sets above. -/
def extMem (ext : List Char) (exts : List String) : Bool :=
  exts.any (fun e => ext == e.toList)

/-- Exclusion decision of lib/categorize.py (should_skip): prefix match on
the lower-cased path, then suffix match, then fnmatch of the file name
against each pattern (an empty pattern list checks nothing, matching the
empty-tuple default of the Python keyword argument). -/
def should_skip (skip_prefixes skip_suffixes skip_patterns : List String)
    (path : String) : Bool :=
  let lower := lowerL path.toList
  skip_prefixes.any (fun pre => startsWithL pre.toList lower) ||
  skip_suffixes.any (fun suf => endsWithL suf.toList lower) ||
  skip_patterns.any (fun pat => fnmatchName (String.mk (basenameL lower)) pat)

/-- Path classifier of lib/categorize.py (categorize): ordered first-match
rules over the lower-cased path. -/
def categorize (path : String) : String :=
  let p := lowerL path.toList
  let name := basenameL p
  if testPathMatch p || endsWithL "_test.go".toList name || endsWithL "test.java".toList name then "test"
  else if ciPathMatch p || startsWithL ".github/".toList p || startsWithL ".gitlab/".toList p then "ci"
  else if startsWithL "docker/".toList p || startsWithL "k8s/".toList p ||
      startsWithL "helm/".toList p || startsWithL "charts/".toList p ||
      containsSub p "docker-compose".toList then "infra"
  else if name == "dockerfile".toList then "infra"
  else if name == "makefile".toList then "build"
  else if name == "pom.xml".toList || name == "build.gradle".toList ||
      name == "settings.gradle".toList then "build"
  else
    let ext := pathSuffixL p
    if ext == ".proto".toList then "proto"
    else if extMem ext EXT_IMPL then "impl"
    else if extMem ext EXT_CONFIG then "config"
    else if extMem ext EXT_INFRA then "infra"
    else if extMem ext EXT_BUILD then "build"
    else if ext == ".sh".toList || ext == ".bash".toList || ext == ".zsh".toList then "build"
    else "other"

example : categorize "tests/ci/deploy.yml" = "test" := by decide
example : categorize "ci/deploy.yml" = "ci" := by decide
example : categorize "service_pb2.py" = "impl" := by decide
example : categorize "a/b/schema.proto" = "proto" := by decide
example : categorize "src/main.go" = "impl" := by decide
example : pathSuffixL "x/.env".toList = [] := by decide
example : pathSuffixL "a.b.c".toList = ".c".toList := by decide
example : fnmatchName "service_pb2.py" "*_pb2.py" = true := by decide
example : fnmatchName "service_pb.py" "*_pb2.py" = false := by decide
example : should_skip ["docs/"] [".md"] [] "docs/x.py" = true := by decide
example : should_skip ["docs/"] [".md"] ["*_pb2.py"] "a/service_pb2.py" = true := by decide
example : should_skip ["docs/"] [".md"] [] "a/service_pb2.py" = false := by decide

/-- Case-insensitive proto-suffix test, modelling
p.lower().endswith of the .proto literal in compute_pairs.py. -/
def endsProtoLower (p : String) : Bool :=
  endsWithL ".proto".toList (lowerL p.toList)

/-- Configuration record carrying exactly the attributes that
compute_pairs.py reads from the RQ0Config object. The dataclass in
lib/config.py defines skip_prefixes, skip_suffixes and max_all_commits but
no skip_patterns field, although compute_pairs.py reads one; the embedding
supplies the attribute the code reads, with the empty list standing for
the absent configuration (see the C4 analysis). -/
structure RQ0CfgM where
  skip_prefixes : List String
  skip_suffixes : List String
  skip_patterns : List String
  max_all_commits : Option Nat

/-- Default skip prefixes of BaseConfig in lib/config.py. -/
def cfgSkipPrefixes : List String :=
  ["docs/", ".github/", ".gitlab/", "vendor/", "third_party/", "node_modules/"]

/-- Default skip suffixes of BaseConfig in lib/config.py. -/
def cfgSkipSuffixes : List String :=
  [".md", ".png", ".jpg", ".jpeg", ".gif", ".svg", ".lock", ".sum"]

/-- Generated-file name patterns, SKIP_PATTERNS of lib/skip_rules.py.
No module of the repository imports this constant. -/
def SKIP_PATTERNS : List String :=
  ["*_pb.go", "*_grpc.pb.go", "*_grpc.pb.*", "*_pb2.py", "*_pb2_grpc.py",
   "zz_generated.*", "bindata.go", "mock_*.go"]

/-- Default configuration as built by the rq0 main module: BaseConfig
field defaults and no commit cap. -/
def cfgDefault : RQ0CfgM :=
  ⟨cfgSkipPrefixes, cfgSkipSuffixes, [], none⟩

/-- Abstract repository for the git-subprocess backend of
lib/git_backend.py: the full non-merge commit universe in rev-list order
and, per commit identifier, the file list git diff-tree prints for it. -/
structure RepoM where
  name : String
  commits : List String
  changed : String → List String

/-- Model of list_all_non_merge_commits: the rev-list output, truncated to
max_commits entries when a cap is passed (git option max-count). -/
def listAllNonMergeCommits (m : RepoM) (cap : Option Nat) : List String :=
  match cap with
  | none => m.commits
  | some k => m.commits.take k

/-- Model of list_proto_change_commits: rev-list restricted by the
star-dot-proto pathspec, i.e. the sublist of non-merge commits whose
change set touches a path with the (case-sensitive) proto suffix. The
pathspec pass is never capped in the source. -/
def listProtoChangeCommits (m : RepoM) : List String :=
  m.commits.filter (fun c => (m.changed c).any (fun p => endsWithL ".proto".toList p.toList))

/-- Model of the helper of compute_pairs.py that drops
excluded paths from the change set of one commit. -/
def filteredChangedFiles (m : RepoM) (cfg : RQ0CfgM) (c : String) : List String :=
  (m.changed c).filter
    (fun p => !should_skip cfg.skip_prefixes cfg.skip_suffixes cfg.skip_patterns p)

/-- Proto files of one commit after exclusion, Phase 1 of
compute_pairs.py. -/
def protosOf (m : RepoM) (cfg : RQ0CfgM) (c : String) : List String :=
  (filteredChangedFiles m cfg c).filter endsProtoLower

/-- Co-change candidates of one commit after exclusion, Phase 1 of
compute_pairs.py: the surviving non-proto paths whose category is not
proto. -/
def cochangeOf (m : RepoM) (cfg : RQ0CfgM) (c : String) : List String :=
  ((filteredChangedFiles m cfg c).filter (fun p => !endsProtoLower p)).filter
    (fun p => !(categorize p == "proto"))

/-- Phase-1 counter n_proto_tx_for_proto: number of traversed proto
commits in which a given proto file appears (the per-commit set semantics
of the Python Counter makes each commit count at most once). -/
def nProtoTx (m : RepoM) (cfg : RQ0CfgM) (p : String) : Nat :=
  (listProtoChangeCommits m).countP (fun c => decide (p ∈ protosOf m cfg c))

/-- Phase-1 counter n_both_tx: number of traversed proto commits in
which both members of a pair appear. -/
def nBothTx (m : RepoM) (cfg : RQ0CfgM) (p f : String) : Nat :=
  (listProtoChangeCommits m).countP
    (fun c => decide (p ∈ protosOf m cfg c ∧ f ∈ cochangeOf m cfg c))

/-- Phase-1 candidate co-change files (candidate_files): files seen as a
co-change in some proto commit that still has a surviving proto file
(commits whose protos are all excluded are skipped by the continue). -/
def candidateFiles (m : RepoM) (cfg : RQ0CfgM) : List String :=
  ((listProtoChangeCommits m).flatMap
    (fun c => if protosOf m cfg c = [] then [] else cochangeOf m cfg c)).dedup

/-- Observed pair keys in Counter insertion order up to deduplication:
one key per (proto file, co-change file) pair seen together in some
traversed proto commit. -/
def candPairs (m : RepoM) (cfg : RQ0CfgM) : List (String × String) :=
  ((listProtoChangeCommits m).flatMap
    (fun c => (protosOf m cfg c).flatMap
      (fun p => (cochangeOf m cfg c).map (fun f => (p, f))))).dedup

/-- Phase-2 counter n_file_tx: occurrences of a candidate file across the
(possibly capped) full non-merge universe; files that are not candidates
keep the dict-get default of zero. -/
def nFileTx (m : RepoM) (cfg : RQ0CfgM) (f : String) : Nat :=
  if f ∈ candidateFiles m cfg then
    (listAllNonMergeCommits m cfg.max_all_commits).countP
      (fun c => decide (f ∈ filteredChangedFiles m cfg c))
  else 0

/-- Size of the Phase-2 universe, n_all_tx of compute_pairs.py. -/
def nAllTx (m : RepoM) (cfg : RQ0CfgM) : Nat :=
  (listAllNonMergeCommits m cfg.max_all_commits).length

/-- Support of a pair: guarded ratio of the co-occurrence count to the
Phase-2 universe size, zero when that universe is empty. -/
def supportQ (m : RepoM) (cfg : RQ0CfgM) (pf : String × String) : ℚ :=
  if nAllTx m cfg = 0 then 0 else (nBothTx m cfg pf.1 pf.2 : ℚ) / (nAllTx m cfg : ℚ)

/-- Confidence of a pair: guarded ratio of the co-occurrence count to the
per-proto transaction count. -/
def confidenceQ (m : RepoM) (cfg : RQ0CfgM) (pf : String × String) : ℚ :=
  if nProtoTx m cfg pf.1 = 0 then 0
  else (nBothTx m cfg pf.1 pf.2 : ℚ) / (nProtoTx m cfg pf.1 : ℚ)

/-- Baseline of a pair: guarded ratio of the file occurrence count to the
Phase-2 universe size. -/
def baselineQ (m : RepoM) (cfg : RQ0CfgM) (pf : String × String) : ℚ :=
  if nAllTx m cfg = 0 then 0 else (nFileTx m cfg pf.2 : ℚ) / (nAllTx m cfg : ℚ)

/-- Lift of a pair: confidence over baseline when the baseline is
positive, zero otherwise. -/
def liftQ (m : RepoM) (cfg : RQ0CfgM) (pf : String × String) : ℚ :=
  if 0 < baselineQ m cfg pf then confidenceQ m cfg pf / baselineQ m cfg pf else 0

/-- One output row of compute_pairs_for_repo, with the columns of
experiments/rq0/schema.py. -/
structure PairRow where
  repo : String
  proto_file : String
  file : String
  file_category : String
  n_all_tx : Nat
  n_proto_tx_for_proto : Nat
  n_file_tx : Nat
  n_both_tx : Nat
  support : ℚ
  confidence : ℚ
  baseline : ℚ
  lift : ℚ
deriving DecidableEq, Repr

/-- Row construction of compute_pairs_for_repo for one observed pair. -/
def mkRow (m : RepoM) (cfg : RQ0CfgM) (pf : String × String) : PairRow :=
  { repo := m.name
    proto_file := pf.1
    file := pf.2
    file_category := categorize pf.2
    n_all_tx := nAllTx m cfg
    n_proto_tx_for_proto := nProtoTx m cfg pf.1
    n_file_tx := nFileTx m cfg pf.2
    n_both_tx := nBothTx m cfg pf.1 pf.2
    support := supportQ m cfg pf
    confidence := confidenceQ m cfg pf
    baseline := baselineQ m cfg pf
    lift := liftQ m cfg pf }

/-- Summary record returned per repository, RepoPairResult of
compute_pairs.py. -/
structure RepoPairResultM where
  repo : String
  n_all_tx : Nat
  n_proto_tx_any : Nat
  n_unique_proto_files : Nat
  n_unique_cochange_files : Nat
  n_pairs : Nat
  rows : List PairRow
deriving DecidableEq, Repr

/-- Unique proto files observed in Phase 1 (candidate_protos). -/
def candidateProtos (m : RepoM) (cfg : RQ0CfgM) : List String :=
  ((listProtoChangeCommits m).flatMap (fun c => protosOf m cfg c)).dedup

/-- Model of compute_pairs_for_repo of experiments/rq0/compute_pairs.py:
Phase-1 pass over the proto commits, Phase-2 pass over the (possibly
capped) full universe, then one row per observed pair with the guarded
ratios. Rows carry no threshold filter. -/
def computePairsForRepo (m : RepoM) (cfg : RQ0CfgM) : RepoPairResultM :=
  { repo := m.name
    n_all_tx := nAllTx m cfg
    n_proto_tx_any := (listProtoChangeCommits m).length
    n_unique_proto_files := (candidateProtos m cfg).length
    n_unique_cochange_files := (candidateFiles m cfg).length
    n_pairs := (candPairs m cfg).length
    rows := (candPairs m cfg).map (mkRow m cfg) }

/-- Two-commit repository in which every commit touches the same proto and
implementation file; used with a Phase-2 commit cap below. -/
def repoCap : RepoM :=
  ⟨"repocap", ["c1", "c2"], fun _ => ["a.proto", "x.py"]⟩

/-- Commit-cap configuration: no exclusions, Phase-2 universe capped to
one commit. -/
def cfgCap1 : RQ0CfgM := ⟨[], [], [], some 1⟩

example : candPairs repoCap cfgCap1 = [("a.proto", "x.py")] := by decide
example : nBothTx repoCap cfgCap1 "a.proto" "x.py" = 2 := by decide
example : nAllTx repoCap cfgCap1 = 1 := by decide
example : supportQ repoCap cfgCap1 ("a.proto", "x.py") = 2 := by
  have hb : nBothTx repoCap cfgCap1 "a.proto" "x.py" = 2 := by decide
  have ha : nAllTx repoCap cfgCap1 = 1 := by decide
  rw [supportQ, ha, hb]
  norm_num

/-- Case-sensitive proto-suffix test, modelling the plain str.endswith
checks of collect_transactions.py and mine_association_rules.py. -/
def endsProtoCS (p : String) : Bool := endsWithL ".proto".toList p.toList

/-- One event line of extract_events.py: the proto files and the
classified co-change files of one proto commit. -/
structure EventRow where
  repo : String
  commit : String
  protobuf_files : List String
  cochange_files : List (String × String)
deriving DecidableEq, Repr

/-- Model of extract_events_for_repo of experiments/rq0/extract_events.py:
one row per proto commit that keeps a surviving proto file. This call
site passes no skip_patterns keyword, so the empty default of should_skip
applies whatever the configuration holds. -/
def extractEventsForRepo (m : RepoM) (cfg : RQ0CfgM) : List EventRow :=
  (listProtoChangeCommits m).filterMap (fun c =>
    let files := (m.changed c).filter
      (fun p => !should_skip cfg.skip_prefixes cfg.skip_suffixes [] p)
    let protos := files.filter endsProtoLower
    if protos = [] then none
    else some
      { repo := m.name
        commit := c
        protobuf_files := protos
        cochange_files :=
          ((files.filter (fun p => !endsProtoLower p)).filter
            (fun p => !(categorize p == "proto"))).map (fun p => (p, categorize p)) })

/-- Code-point comparison of character lists, modelling the Python
lexicographic string order used by sorted. -/
def lexLe : List Char → List Char → Bool
  | [], _ => true
  | _ :: _, [] => false
  | a :: as, b :: bs =>
    if a.toNat < b.toNat then true
    else if b.toNat < a.toNat then false
    else lexLe as bs

/-- String comparison through the code-point order. -/
def strLe (s t : String) : Bool := lexLe s.toList t.toList

/-- Ordered insertion into a sorted string list. -/
def insertSorted (a : String) : List String → List String
  | [] => [a]
  | b :: bs => if strLe a b then a :: b :: bs else b :: insertSorted a bs

/-- Insertion sort over strings, modelling the Python sorted builtin on
the deduplicated path sets of collect_transactions.py. -/
def sortStrings : List String → List String
  | [] => []
  | a :: as => insertSorted a (sortStrings as)

/-- Tree entry of the GitPython object model: a path and an object type
tag (blob for file contents). -/
structure TreeItem where
  path : String
  itemType : String
deriving DecidableEq, Repr

/-- One diff record of the GitPython first-parent comparison, carrying the
optional old and new path. -/
structure DiffEntry where
  a_path : Option String
  b_path : Option String
deriving DecidableEq, Repr

/-- A commit as seen through GitPython in collect_transactions.py: parent
list, tree entries, and the diff of the first parent against the commit. -/
structure CommitG where
  id : String
  parents : List String
  tree : List TreeItem
  diffVsFirstParent : List DiffEntry
deriving Repr

/-- A repository as traversed by collect_transactions.py: its non-merge
commits in iteration order. -/
structure RepoG where
  name : String
  commits : List CommitG
deriving Repr

/-- Truthiness filter on an optional path: the Python conditionals on
d.a_path and d.b_path treat None and the empty string as absent. -/
def truthyPath : Option String → List String
  | none => []
  | some s => if s = "" then [] else [s]

/-- Model of get_changed_files_in_commit of collect_transactions.py: for a
root commit, the sorted set of blob paths of the tree; otherwise the
sorted set of old and new paths over the first-parent diff. -/
def getChangedFilesInCommit (c : CommitG) : List String :=
  if c.parents = [] then
    sortStrings ((c.tree.filter (fun it => it.itemType == "blob")).map
      (fun it => it.path)).dedup
  else
    sortStrings ((c.diffVsFirstParent.flatMap
      (fun d => truthyPath d.a_path ++ truthyPath d.b_path)).dedup)

/-- Model of collect_transactions of collect_transactions.py: one
transaction per non-merge commit with a non-empty change set touching a
proto file. -/
def collectTransactions (g : RepoG) : List (List String) :=
  g.commits.filterMap (fun c =>
    let fs := getChangedFilesInCommit c
    if fs = [] then none
    else if fs.any endsProtoCS then some fs else none)

/-- Per-transaction file occurrence counter of mine_association_rules.py
(count_file): each transaction contributes at most once per file. -/
def mineCountFile (txs : List (List String)) (f : String) : Nat :=
  txs.countP (fun tx => decide (f ∈ tx))

/-- Pair co-occurrence counter of mine_association_rules.py (co_count):
a transaction counts when it contains the proto-suffixed left file and
the non-proto right file. -/
def mineCoCount (txs : List (List String)) (p o : String) : Nat :=
  txs.countP (fun tx =>
    decide (p ∈ tx) && endsProtoCS p && decide (o ∈ tx) && !endsProtoCS o)

/-- Observed pair keys of the co_count Counter, deduplicated. -/
def minePairKeys (txs : List (List String)) : List (String × String) :=
  (txs.flatMap (fun tx =>
    (tx.dedup.filter endsProtoCS).flatMap (fun p =>
      (tx.dedup.filter (fun o => !endsProtoCS o)).map (fun o => (p, o))))).dedup

/-- Minimum support threshold of mine_association_rules.py. -/
def MIN_SUPPORT : ℚ := 5 / 1000

/-- Minimum confidence threshold of mine_association_rules.py. -/
def MIN_CONFIDENCE : ℚ := 3 / 10

/-- Minimum lift threshold of mine_association_rules.py. -/
def MIN_LIFT : ℚ := 1

/-- Output row of mine_association_rules.py. -/
structure MineRow where
  proto : String
  file : String
  support : ℚ
  confidence : ℚ
  lift : ℚ
  count_proto_and_file : Nat
  count_proto : Nat
  count_file : Nat
deriving DecidableEq, Repr

/-- Ratio computation of mine_association_rules.py from the four integer
counters: support of the pair, support of the file, confidence and lift
(in that order). Python divides these counts as floats; over the inputs
reached by the script the divisors are positive. -/
def mineMetrics (total n_co c_p c_f : Nat) : ℚ × ℚ × ℚ × ℚ :=
  let supp_pf : ℚ := (n_co : ℚ) / (total : ℚ)
  let supp_p : ℚ := (c_p : ℚ) / (total : ℚ)
  let supp_f : ℚ := (c_f : ℚ) / (total : ℚ)
  let conf := supp_pf / supp_p
  (supp_pf, supp_f, conf, conf / supp_f)

/-- Row construction and filtering of mine_association_rules.py for one
observed pair: the zero-divisor guard drops the pair when the proto or
file support is zero, then the three thresholds apply. -/
def mineRowFor (txs : List (List String)) (pf : String × String) : Option MineRow :=
  let total := txs.length
  let n_co := mineCoCount txs pf.1 pf.2
  let c_p := mineCountFile txs pf.1
  let c_f := mineCountFile txs pf.2
  let mm := mineMetrics total n_co c_p c_f
  if (c_p : ℚ) / (total : ℚ) = 0 ∨ mm.2.1 = 0 then none
  else if mm.1 < MIN_SUPPORT then none
  else if mm.2.2.1 < MIN_CONFIDENCE then none
  else if mm.2.2.2 < MIN_LIFT then none
  else some ⟨pf.1, pf.2, mm.1, mm.2.2.1, mm.2.2.2, n_co, c_p, c_f⟩

/-- Rows emitted by mine_association_rules.py before the final
descending sort (sorting permutes rows and is irrelevant to the
membership statements proved about this table). -/
def mineRows (txs : List (List String)) : List MineRow :=
  (minePairKeys txs).filterMap (mineRowFor txs)

/-- Model of merge_repo_csvs of experiments/rq0/merge_outputs.py over
already-parsed CSV contents (each file is its header row followed by its
data rows): the header of the first file, then the data rows of every
file in order, each file contributing everything after its first line. -/
def mergeRepoCsvs (files : List (List (List String))) : List (List String) :=
  match files with
  | [] => []
  | first :: _ => first.headD [] :: files.flatMap (fun f => f.drop 1)

/-- Success test on an Except value, modelling whether a Python call
returned rather than raised. -/
def okE {ε α : Type} : Except ε α → Bool
  | .ok _ => true
  | .error _ => false

/-- Sequencing of fallible per-element calls, modelling a Python loop of
subprocess calls: the first raised error aborts the traversal. -/
def mapE {ε α β : Type} (f : α → Except ε β) : List α → Except ε (List β)
  | [] => .ok []
  | a :: as =>
    match f a with
    | .error e => .error e
    | .ok b =>
      match mapE f as with
      | .error e => .error e
      | .ok bs => .ok (b :: bs)

/-- Repository handle whose history accesses can fail, modelling run_git
of lib/git_backend.py raising GitError: the commit lists were already
obtained, and each diff-tree call either returns a file list or raises. -/
structure RepoE where
  name : String
  commits : List String
  protoCommits : List String
  changedE : String → Except String (List String)

/-- Fallible variant of the per-commit filter helper of compute_pairs.py:
a GitError from diff-tree passes through untouched. -/
def filteredFilesE (m : RepoE) (cfg : RQ0CfgM) (c : String) :
    Except String (List String) :=
  match m.changedE c with
  | .error e => .error e
  | .ok fs => .ok (fs.filter
      (fun p => !should_skip cfg.skip_prefixes cfg.skip_suffixes cfg.skip_patterns p))

/-- Surviving proto files of one already-filtered change set. -/
def protosOfFiles (fs : List String) : List String := fs.filter endsProtoLower

/-- Surviving co-change files of one already-filtered change set. -/
def cochangeOfFiles (fs : List String) : List String :=
  (fs.filter (fun p => !endsProtoLower p)).filter (fun p => !(categorize p == "proto"))

/-- Fallible model of compute_pairs_for_repo: the function body contains
no exception handler, so the first GitError raised while resolving a
commit in either phase escapes and no result is produced; otherwise the
two counting passes and the row construction proceed as in the pure
model. -/
def computePairsE (m : RepoE) (cfg : RQ0CfgM) : Except String RepoPairResultM :=
  match mapE (filteredFilesE m cfg) m.protoCommits with
  | .error e => .error e
  | .ok protoFiles =>
    let cand := (protoFiles.flatMap
      (fun fs => if protosOfFiles fs = [] then [] else cochangeOfFiles fs)).dedup
    let allCommits := match cfg.max_all_commits with
      | none => m.commits
      | some k => m.commits.take k
    match (if cand.isEmpty then Except.ok [] else mapE (filteredFilesE m cfg) allCommits) with
    | .error e => .error e
    | .ok allFiles =>
      let keys := (protoFiles.flatMap (fun fs =>
        (protosOfFiles fs).flatMap (fun p =>
          (cochangeOfFiles fs).map (fun f => (p, f))))).dedup
      let nAll := allCommits.length
      Except.ok
        { repo := m.name
          n_all_tx := nAll
          n_proto_tx_any := m.protoCommits.length
          n_unique_proto_files := (protoFiles.flatMap protosOfFiles).dedup.length
          n_unique_cochange_files := cand.length
          n_pairs := keys.length
          rows := keys.map (fun pf =>
            let both := protoFiles.countP
              (fun fs => decide (pf.1 ∈ protosOfFiles fs ∧ pf.2 ∈ cochangeOfFiles fs))
            let protoTx := protoFiles.countP (fun fs => decide (pf.1 ∈ protosOfFiles fs))
            let fileTx := if pf.2 ∈ cand
              then allFiles.countP (fun fs => decide (pf.2 ∈ fs)) else 0
            let support : ℚ := if nAll = 0 then 0 else (both : ℚ) / (nAll : ℚ)
            let conf : ℚ := if protoTx = 0 then 0 else (both : ℚ) / (protoTx : ℚ)
            let base : ℚ := if nAll = 0 then 0 else (fileTx : ℚ) / (nAll : ℚ)
            { repo := m.name
              proto_file := pf.1
              file := pf.2
              file_category := categorize pf.2
              n_all_tx := nAll
              n_proto_tx_for_proto := protoTx
              n_file_tx := fileTx
              n_both_tx := both
              support := support
              confidence := conf
              baseline := base
              lift := if 0 < base then conf / base else 0 }) }

/-- Repository handle for the GitPython script with fallible per-commit
change-set resolution, modelling GitCommandError. -/
structure RepoGE where
  name : String
  commits : List String
  changedE : String → Except String (List String)

/-- Fallible model of collect_transactions of collect_transactions.py:
the loop body has no handler, so the first GitCommandError escapes to the
caller. -/
def collectTransactionsE (g : RepoGE) : Except String (List (List String)) :=
  match mapE g.changedE g.commits with
  | .error e => .error e
  | .ok fss => .ok ((fss.filter (fun fs => !fs.isEmpty)).filter (fun fs => fs.any endsProtoCS))

/-- Model of collect_for_repo of collect_transactions.py: a
GitCommandError anywhere in the repository pass is caught at the
repository boundary and the whole repository contributes nothing. -/
def collectForRepoE (g : RepoGE) : List (List String) :=
  match collectTransactionsE g with
  | .error _ => []
  | .ok txs => txs

theorem mem_insertSorted {a x : String} {l : List String} :
    a ∈ insertSorted x l ↔ a = x ∨ a ∈ l := by
  induction l with
  | nil => simp [insertSorted]
  | cons b bs ih =>
    simp only [insertSorted]
    split
    · simp
    · simp only [List.mem_cons, ih]
      tauto

theorem mem_sortStrings {a : String} {l : List String} :
    a ∈ sortStrings l ↔ a ∈ l := by
  induction l with
  | nil => simp [sortStrings]
  | cons b bs ih => simp [sortStrings, mem_insertSorted, ih]

theorem mem_truthyPath {x : String} {o : Option String} :
    x ∈ truthyPath o ↔ o = some x ∧ x ≠ "" := by
  cases o with
  | none => simp [truthyPath]
  | some s =>
    constructor
    · intro hx
      simp only [truthyPath] at hx
      split at hx
      · simp at hx
      · next hs =>
        simp only [List.mem_singleton] at hx
        subst hx
        exact ⟨rfl, hs⟩
    · rintro ⟨heq, hne⟩
      injection heq with heq
      subst heq
      simp only [truthyPath, if_neg hne, List.mem_singleton]

theorem mem_candPairs {m : RepoM} {cfg : RQ0CfgM} {p f : String} :
    (p, f) ∈ candPairs m cfg ↔
      ∃ c ∈ listProtoChangeCommits m, p ∈ protosOf m cfg c ∧ f ∈ cochangeOf m cfg c := by
  simp only [candPairs, List.mem_dedup, List.mem_flatMap, List.mem_map, Prod.mk.injEq]
  constructor
  · rintro ⟨c, hc, p₁, hp₁, f₁, hf₁, rfl, rfl⟩
    exact ⟨c, hc, hp₁, hf₁⟩
  · rintro ⟨c, hc, hp, hf⟩
    exact ⟨c, hc, p, hp, f, hf, rfl, rfl⟩

theorem mem_rows_iff {m : RepoM} {cfg : RQ0CfgM} {r : PairRow} :
    r ∈ (computePairsForRepo m cfg).rows ↔
      ∃ pf ∈ candPairs m cfg, r = mkRow m cfg pf := by
  simp only [computePairsForRepo, List.mem_map]
  constructor
  · rintro ⟨pf, hpf, rfl⟩
    exact ⟨pf, hpf, rfl⟩
  · rintro ⟨pf, hpf, rfl⟩
    exact ⟨pf, hpf, rfl⟩

theorem mem_filtered_of_mem_cochange {m : RepoM} {cfg : RQ0CfgM} {c f : String}
    (h : f ∈ cochangeOf m cfg c) : f ∈ filteredChangedFiles m cfg c := by
  simp only [cochangeOf, List.mem_filter] at h
  exact h.1.1

theorem not_proto_of_mem_cochange {m : RepoM} {cfg : RQ0CfgM} {c f : String}
    (h : f ∈ cochangeOf m cfg c) : endsProtoLower f = false := by
  simp only [cochangeOf, List.mem_filter, Bool.not_eq_eq_eq_not, Bool.not_true] at h
  exact h.1.2

theorem mem_candidateFiles_of_mem_cochange {m : RepoM} {cfg : RQ0CfgM} {c f : String}
    (hc : c ∈ listProtoChangeCommits m) (hne : protosOf m cfg c ≠ [])
    (hf : f ∈ cochangeOf m cfg c) : f ∈ candidateFiles m cfg := by
  simp only [candidateFiles, List.mem_dedup, List.mem_flatMap]
  exact ⟨c, hc, by rw [if_neg hne]; exact hf⟩

theorem nBothTx_pos {m : RepoM} {cfg : RQ0CfgM} {p f : String}
    (h : (p, f) ∈ candPairs m cfg) : 0 < nBothTx m cfg p f := by
  rw [mem_candPairs] at h
  obtain ⟨c, hc, hp, hf⟩ := h
  rw [nBothTx, List.countP_pos_iff]
  exact ⟨c, hc, by simp [hp, hf]⟩

theorem nBothTx_le_nProtoTx {m : RepoM} {cfg : RQ0CfgM} {p f : String} :
    nBothTx m cfg p f ≤ nProtoTx m cfg p := by
  apply List.countP_mono_left
  intro c _ h
  simp only [decide_eq_true_eq] at h ⊢
  exact h.1

theorem nProtoTx_le_commits {m : RepoM} {cfg : RQ0CfgM} {p : String} :
    nProtoTx m cfg p ≤ m.commits.length := by
  calc nProtoTx m cfg p ≤ (listProtoChangeCommits m).length := List.countP_le_length _
  _ ≤ m.commits.length := by
      rw [listProtoChangeCommits]
      exact (List.filter_sublist _).length_le

theorem nFileTx_le_nAllTx {m : RepoM} {cfg : RQ0CfgM} {f : String} :
    nFileTx m cfg f ≤ nAllTx m cfg := by
  rw [nFileTx, nAllTx]
  split
  · exact List.countP_le_length _
  · exact Nat.zero_le _

theorem nBothTx_le_nFileTx {m : RepoM} {cfg : RQ0CfgM} {p f : String}
    (hcap : cfg.max_all_commits = none) (h : (p, f) ∈ candPairs m cfg) :
    nBothTx m cfg p f ≤ nFileTx m cfg f := by
  have hmem := h
  rw [mem_candPairs] at hmem
  obtain ⟨c, hc, hp, hf⟩ := hmem
  have hcand : f ∈ candidateFiles m cfg :=
    mem_candidateFiles_of_mem_cochange hc (List.ne_nil_of_mem hp) hf
  rw [nFileTx, if_pos hcand, hcap, nBothTx, listProtoChangeCommits, List.countP_filter]
  apply List.countP_mono_left
  intro c₁ _ hdec
  simp only [Bool.and_eq_true, decide_eq_true_eq] at hdec ⊢
  exact mem_filtered_of_mem_cochange hdec.1.2

theorem ratioNat_nonneg (a b : Nat) :
    (0 : ℚ) ≤ (if b = 0 then (0 : ℚ) else (a : ℚ) / (b : ℚ)) := by
  split
  · exact le_refl 0
  · positivity

theorem ratioNat_le_one {a b : Nat} (h : a ≤ b) :
    (if b = 0 then (0 : ℚ) else (a : ℚ) / (b : ℚ)) ≤ 1 := by
  split
  · exact zero_le_one
  · next hb =>
    have hb' : (0 : ℚ) < (b : ℚ) := by exact_mod_cast Nat.pos_of_ne_zero hb
    rw [div_le_one hb']
    exact_mod_cast h

theorem ratioNat_pos {a b : Nat} (ha : 0 < a) (h : a ≤ b) :
    (0 : ℚ) < (if b = 0 then (0 : ℚ) else (a : ℚ) / (b : ℚ)) := by
  have hb : b ≠ 0 := Nat.pos_iff_ne_zero.mp (Nat.lt_of_lt_of_le ha h)
  rw [if_neg hb]
  have ha' : (0 : ℚ) < (a : ℚ) := by exact_mod_cast ha
  have hb' : (0 : ℚ) < (b : ℚ) := by exact_mod_cast Nat.pos_of_ne_zero hb
  exact div_pos ha' hb'

theorem supportQ_eq {m : RepoM} {cfg : RQ0CfgM} {pf : String × String} :
    supportQ m cfg pf =
      (if nAllTx m cfg = 0 then (0 : ℚ)
       else (nBothTx m cfg pf.1 pf.2 : ℚ) / (nAllTx m cfg : ℚ)) := rfl

theorem confidenceQ_eq {m : RepoM} {cfg : RQ0CfgM} {pf : String × String} :
    confidenceQ m cfg pf =
      (if nProtoTx m cfg pf.1 = 0 then (0 : ℚ)
       else (nBothTx m cfg pf.1 pf.2 : ℚ) / (nProtoTx m cfg pf.1 : ℚ)) := rfl

theorem baselineQ_eq {m : RepoM} {cfg : RQ0CfgM} {pf : String × String} :
    baselineQ m cfg pf =
      (if nAllTx m cfg = 0 then (0 : ℚ)
       else (nFileTx m cfg pf.2 : ℚ) / (nAllTx m cfg : ℚ)) := rfl

theorem liftQ_nonneg {m : RepoM} {cfg : RQ0CfgM} {pf : String × String}
    (hconf : 0 ≤ confidenceQ m cfg pf) : 0 ≤ liftQ m cfg pf := by
  rw [liftQ]
  split
  · next hb => exact div_nonneg hconf (le_of_lt hb)
  · exact le_refl 0

theorem mem_minePairKeys {txs : List (List String)} {p f : String} :
    (p, f) ∈ minePairKeys txs ↔
      ∃ tx ∈ txs, p ∈ tx ∧ endsProtoCS p = true ∧ f ∈ tx ∧ endsProtoCS f = false := by
  simp only [minePairKeys, List.mem_dedup, List.mem_flatMap, List.mem_map,
    List.mem_filter, Prod.mk.injEq, Bool.not_eq_true']
  constructor
  · rintro ⟨tx, htx, p₁, ⟨⟨hp₁m, hp₁⟩, f₁, ⟨hf₁m, hf₁⟩, rfl, rfl⟩⟩
    exact ⟨tx, htx, hp₁m, hp₁, hf₁m, hf₁⟩
  · rintro ⟨tx, htx, hpm, hp, hfm, hf⟩
    exact ⟨tx, htx, p, ⟨⟨hpm, hp⟩, f, ⟨⟨hfm, hf⟩, rfl, rfl⟩⟩⟩

theorem mine_total_pos {txs : List (List String)} {p f : String}
    (h : (p, f) ∈ minePairKeys txs) : 0 < txs.length := by
  rw [mem_minePairKeys] at h
  obtain ⟨tx, htx, -⟩ := h
  exact List.length_pos.mpr (List.ne_nil_of_mem htx)

theorem mineCountFile_pos_left {txs : List (List String)} {p f : String}
    (h : (p, f) ∈ minePairKeys txs) : 0 < mineCountFile txs p := by
  rw [mem_minePairKeys] at h
  obtain ⟨tx, htx, hpm, -, -, -⟩ := h
  rw [mineCountFile, List.countP_pos_iff]
  exact ⟨tx, htx, by simpa using hpm⟩

theorem mineCountFile_pos_right {txs : List (List String)} {p f : String}
    (h : (p, f) ∈ minePairKeys txs) : 0 < mineCountFile txs f := by
  rw [mem_minePairKeys] at h
  obtain ⟨tx, htx, -, -, hfm, -⟩ := h
  rw [mineCountFile, List.countP_pos_iff]
  exact ⟨tx, htx, by simpa using hfm⟩

theorem mineCoCount_pos {txs : List (List String)} {p f : String}
    (h : (p, f) ∈ minePairKeys txs) : 0 < mineCoCount txs p f := by
  rw [mem_minePairKeys] at h
  obtain ⟨tx, htx, hpm, hp, hfm, hf⟩ := h
  rw [mineCoCount, List.countP_pos_iff]
  exact ⟨tx, htx, by simp [hpm, hp, hfm, hf]⟩

theorem mine_guard_false {txs : List (List String)} {p f : String}
    (h : (p, f) ∈ minePairKeys txs) :
    ¬((mineCountFile txs p : ℚ) / (txs.length : ℚ) = 0 ∨
      (mineCountFile txs f : ℚ) / (txs.length : ℚ) = 0) := by
  have ht : (0 : ℚ) < (txs.length : ℚ) := by exact_mod_cast mine_total_pos h
  have hp : (0 : ℚ) < (mineCountFile txs p : ℚ) := by exact_mod_cast mineCountFile_pos_left h
  have hf : (0 : ℚ) < (mineCountFile txs f : ℚ) := by exact_mod_cast mineCountFile_pos_right h
  rintro (h0 | h0)
  · exact absurd h0 (ne_of_gt (div_pos hp ht))
  · exact absurd h0 (ne_of_gt (div_pos hf ht))

theorem mineRowFor_isSome_iff {txs : List (List String)} {p f : String}
    (h : (p, f) ∈ minePairKeys txs) :
    (mineRowFor txs (p, f)).isSome = true ↔
      (MIN_SUPPORT ≤ (mineMetrics txs.length (mineCoCount txs p f)
          (mineCountFile txs p) (mineCountFile txs f)).1 ∧
       MIN_CONFIDENCE ≤ (mineMetrics txs.length (mineCoCount txs p f)
          (mineCountFile txs p) (mineCountFile txs f)).2.2.1 ∧
       MIN_LIFT ≤ (mineMetrics txs.length (mineCoCount txs p f)
          (mineCountFile txs p) (mineCountFile txs f)).2.2.2) := by
  have hg : ¬((mineCountFile txs p : ℚ) / (txs.length : ℚ) = 0 ∨
      (mineMetrics txs.length (mineCoCount txs p f) (mineCountFile txs p)
        (mineCountFile txs f)).2.1 = 0) := mine_guard_false h
  simp only [mineRowFor, mineMetrics]
  simp only [mineMetrics] at hg
  rw [if_neg hg]
  split_ifs with h1 h2 h3
  · simp [not_le.mpr h1]
  · simp [not_le.mpr h2]
  · simp [not_le.mpr h3]
  · simp [not_lt.mp h1, not_lt.mp h2, not_lt.mp h3]

theorem okE_filteredFilesE {m : RepoE} {cfg : RQ0CfgM} {c : String} :
    okE (filteredFilesE m cfg c) = okE (m.changedE c) := by
  cases h : m.changedE c <;> simp [filteredFilesE, h, okE]

theorem okE_mapE_false {ε α β : Type} (g : α → Except ε β) (l : List α)
    (h : ∃ a ∈ l, okE (g a) = false) : okE (mapE g l) = false := by
  induction l with
  | nil => simp at h
  | cons a as ih =>
    obtain ⟨x, hx, hgx⟩ := h
    rw [List.mem_cons] at hx
    cases hga : g a with
    | error e => simp [mapE, hga, okE]
    | ok b =>
      rcases hx with rfl | hx
      · rw [hga] at hgx
        simp [okE] at hgx
      · have hrest := ih ⟨x, hx, hgx⟩
        simp only [mapE, hga]
        cases hm : mapE g as with
        | error e => simp [okE]
        | ok bs =>
          rw [hm] at hrest
          simp [okE] at hrest

theorem okE_mapE_true {ε α β : Type} (g : α → Except ε β) (l : List α)
    (h : ∀ a ∈ l, okE (g a) = true) : okE (mapE g l) = true := by
  induction l with
  | nil => simp [mapE, okE]
  | cons a as ih =>
    cases hga : g a with
    | error e =>
      have := h a (List.mem_cons_self a as)
      rw [hga] at this
      simp [okE] at this
    | ok b =>
      have hrest := ih (fun x hx => h x (List.mem_cons_of_mem _ hx))
      simp only [mapE, hga]
      cases hm : mapE g as with
      | error e =>
        rw [hm] at hrest
        simp [okE] at hrest
      | ok bs => simp [okE]

theorem eq_error_of_okE_false {ε α : Type} {x : Except ε α} (h : okE x = false) :
    ∃ e, x = .error e := by
  cases x with
  | error e => exact ⟨e, rfl⟩
  | ok b => simp [okE] at h

/-- One-commit repository in which the only commit touches one proto file
and one implementation file; the pass over it yields exactly one pair. -/
def repoW : RepoM := ⟨"repow", ["c1"], fun _ => ["a.proto", "x.py"]⟩

/-- The single observed pair of repoW. -/
def pfW : String × String := ("a.proto", "x.py")

/-- The single pair row of repoW under the default configuration. -/
def rowW : PairRow := mkRow repoW cfgDefault pfW

/-- Phase-2 cap of zero commits: the configuration surface allows a
max-commit bound, and zero empties the baseline universe while Phase 1
still runs uncapped. -/
def cfgZeroCap : RQ0CfgM := ⟨[], [], [], some 0⟩

/-- One-commit repository used with the zero cap. -/
def repoZ : RepoM := ⟨"repoz", ["c1"], fun _ => ["a.proto", "x.py"]⟩

/-- The pair row of repoZ under the zero cap: positive co-occurrence with
an empty Phase-2 universe. -/
def rowZ : PairRow := mkRow repoZ cfgZeroCap ("a.proto", "x.py")

/-- The pair row of the capped two-commit repository repoCap. -/
def rowCap : PairRow := mkRow repoCap cfgCap1 ("a.proto", "x.py")

/-- Four-commit repository: the proto file changes in every commit, the
implementation file co-changes only once, so the pair confidence is one
quarter. -/
def repo4 : RepoM :=
  ⟨"repo4", ["c1", "c2", "c3", "c4"],
   fun c => if c = "c1" then ["a.proto", "x.py"] else ["a.proto"]⟩

/-- The pair row of repo4: emitted although its confidence is below the
default minimum confidence threshold. -/
def row4 : PairRow := mkRow repo4 cfgDefault ("a.proto", "x.py")

/-- Repository whose only commit touches a proto file and a generated
protobuf Python module. -/
def repoPB : RepoM := ⟨"repopb", ["c1"], fun _ => ["a.proto", "service_pb2.py"]⟩

/-- Three GitPython commits: two touch the proto and the implementation
file, the third touches only the implementation file (so the full
non-merge universe has three commits but only two transactions reach the
mining script). -/
def repoG3 : RepoG :=
  ⟨"repog3",
   [⟨"c1", ["p0"], [], [⟨some "a.proto", some "a.proto"⟩, ⟨some "x.py", some "x.py"⟩]⟩,
    ⟨"c2", ["p0"], [], [⟨some "a.proto", some "a.proto"⟩, ⟨some "x.py", some "x.py"⟩]⟩,
    ⟨"c3", ["p0"], [], [⟨some "x.py", some "x.py"⟩]⟩]⟩

/-- Root commit tracking exactly an interface file and an implementation
file. -/
def rootCommit : CommitG :=
  ⟨"r0", [], [⟨"schema.proto", "blob"⟩, ⟨"main.impl", "blob"⟩], []⟩

/-- Repository whose only commit is the root commit above. -/
def repoRoot : RepoG := ⟨"reporoot", [rootCommit]⟩

/-- Fallible repository: the first commit resolves, the second raises. -/
def repoE7 : RepoE :=
  ⟨"repoe7", ["c1", "c2"], ["c1", "c2"],
   fun c => if c = "c1" then .ok ["a.proto", "x.py"] else .error "git failed"⟩

/-- Fallible GitPython repository with the same histories. -/
def repoGE7 : RepoGE :=
  ⟨"repoge7", ["c1", "c2"],
   fun c => if c = "c1" then .ok ["a.proto", "x.py"] else .error "git failed"⟩

/-- First per-repository CSV: header plus one data row. -/
def csvA : List (List String) := [["repo", "file"], ["r1", "a.py"]]

/-- Second per-repository CSV with an inconsistent column set. -/
def csvB : List (List String) := [["repo", "file", "extra"], ["r2", "b.py", "zzz"]]

example : collectTransactions repoG3 = [["a.proto", "x.py"], ["a.proto", "x.py"]] := by decide
example : collectTransactions repoRoot = [["main.impl", "schema.proto"]] := by decide
example : candPairs repoW cfgDefault = [("a.proto", "x.py")] := by decide
example : candPairs repoZ cfgZeroCap = [("a.proto", "x.py")] := by decide
example : candPairs repo4 cfgDefault = [("a.proto", "x.py")] := by decide

/-- C9: categorize is a total function on path strings evaluated by
ordered priority with the test rule first: every path matching the
test-directory or test-filename patterns is classified test, whatever
other rules it matches; in particular tests/ci/deploy.yml is test even
though it also matches the CI segment pattern and carries a
configuration extension. -/
theorem c9_test_priority :
    (∀ path : String,
      (testPathMatch (lowerL path.toList) ||
       endsWithL "_test.go".toList (basenameL (lowerL path.toList)) ||
       endsWithL "test.java".toList (basenameL (lowerL path.toList))) = true →
      categorize path = "test") ∧
    categorize "tests/ci/deploy.yml" = "test" ∧
    ciPathMatch (lowerL "tests/ci/deploy.yml".toList) = true ∧
    extMem (pathSuffixL (lowerL "tests/ci/deploy.yml".toList)) EXT_CONFIG = true := by
  refine ⟨?_, by decide, by decide, by decide⟩
  intro path h
  simp only [categorize]
  rw [if_pos h]

/-- C9 witness: a path under a tests directory is classified test through
the priority theorem. -/
theorem c9_test_priority_witness : categorize "tests/ci/deploy.yml" = "test" :=
  c9_test_priority.1 "tests/ci/deploy.yml" (by decide)

/-- C3: the change-set resolver of collect_transactions.py returns, for a
parentless commit, exactly the blob paths of its tree, and otherwise
exactly the old and new paths over the first-parent diff; the repository
whose only commit is a root commit touching schema.proto and main.impl
yields exactly one transaction holding both files, and that transaction
satisfies the interface-flag condition of the transaction builder. -/
theorem c3_change_set_resolver :
    (∀ c : CommitG, c.parents = [] →
      ∀ p : String, p ∈ getChangedFilesInCommit c ↔
        ∃ it ∈ c.tree, it.itemType = "blob" ∧ it.path = p) ∧
    (∀ c : CommitG, c.parents ≠ [] →
      ∀ p : String, p ∈ getChangedFilesInCommit c ↔
        (p ≠ "" ∧ ∃ d ∈ c.diffVsFirstParent, d.a_path = some p ∨ d.b_path = some p)) ∧
    collectTransactions repoRoot = [["main.impl", "schema.proto"]] ∧
    ["main.impl", "schema.proto"].any endsProtoCS = true := by
  refine ⟨?_, ?_, by decide, by decide⟩
  · intro c hc p
    rw [getChangedFilesInCommit, if_pos hc, mem_sortStrings, List.mem_dedup, List.mem_map]
    constructor
    · rintro ⟨it, hit, rfl⟩
      rw [List.mem_filter] at hit
      exact ⟨it, hit.1, by simpa using hit.2, rfl⟩
    · rintro ⟨it, hit, htype, rfl⟩
      exact ⟨it, List.mem_filter.mpr ⟨hit, by simpa using htype⟩, rfl⟩
  · intro c hc p
    rw [getChangedFilesInCommit, if_neg hc, mem_sortStrings, List.mem_dedup, List.mem_flatMap]
    constructor
    · rintro ⟨d, hd, hp⟩
      rw [List.mem_append] at hp
      rcases hp with hp | hp <;> rw [mem_truthyPath] at hp
      · exact ⟨hp.2, d, hd, Or.inl hp.1⟩
      · exact ⟨hp.2, d, hd, Or.inr hp.1⟩
    · rintro ⟨hne, d, hd, hor⟩
      refine ⟨d, hd, List.mem_append.mpr ?_⟩
      rcases hor with h | h
      · exact Or.inl (mem_truthyPath.mpr ⟨h, hne⟩)
      · exact Or.inr (mem_truthyPath.mpr ⟨h, hne⟩)

/-- C3 witness: the root-commit case of the resolver applied to the
concrete root commit puts the tracked schema file in the change set. -/
theorem c3_change_set_resolver_witness :
    "schema.proto" ∈ getChangedFilesInCommit rootCommit :=
  (c3_change_set_resolver.1 rootCommit rfl "schema.proto").mpr
    ⟨⟨"schema.proto", "blob"⟩, by decide, rfl, rfl⟩

/-- C4 evaluation at the failing input: under the BaseConfig defaults of
lib/config.py no skip pattern is ever supplied, so the generated module
service_pb2.py survives exclusion, is classified as implementation code,
and reaches both the event log and the pair table of a commit touching
a.proto and service_pb2.py, although the unused SKIP_PATTERNS list of
lib/skip_rules.py matches it. -/
theorem c4_generated_file_not_excluded :
    should_skip cfgSkipPrefixes cfgSkipSuffixes [] "service_pb2.py" = false ∧
    fnmatchName "service_pb2.py" "*_pb2.py" = true ∧
    should_skip cfgSkipPrefixes cfgSkipSuffixes SKIP_PATTERNS "service_pb2.py" = true ∧
    (extractEventsForRepo repoPB cfgDefault).map EventRow.cochange_files =
      [[("service_pb2.py", "impl")]] ∧
    (computePairsForRepo repoPB cfgDefault).rows.map (fun r => (r.proto_file, r.file)) =
      [("a.proto", "service_pb2.py")] := by
  refine ⟨by decide, by decide, by decide, by decide, by decide⟩

/-- C8 counterexample: two per-repository tables with different headers
are merged without any failure; the output carries the first header and
the data rows of both files, including a row whose width disagrees with
the emitted header. -/
theorem c8_counterexample :
    csvA.headD [] ≠ csvB.headD [] ∧
    mergeRepoCsvs [csvA, csvB] =
      [["repo", "file"], ["r1", "a.py"], ["r2", "b.py", "zzz"]] ∧
    (["r2", "b.py", "zzz"] : List String).length ≠
      ((mergeRepoCsvs [csvA, csvB]).headD []).length := by
  refine ⟨by decide, by decide, by decide⟩

/-- C8 amended: the merge concatenates the data rows of every input file
verbatim under the first file's header, with no recomputation and no
column-consistency check. -/
theorem c8_amended_concatenation :
    (∀ (files : List (List (List String))) (f : List (List String)) (r : List String),
      f ∈ files → r ∈ f.drop 1 → r ∈ mergeRepoCsvs files) ∧
    (∀ files : List (List (List String)), files ≠ [] →
      (mergeRepoCsvs files).drop 1 = files.flatMap (fun f => f.drop 1)) := by
  constructor
  · intro files f r hf hr
    cases files with
    | nil => simp at hf
    | cons first rest =>
      simp only [mergeRepoCsvs, List.mem_cons]
      exact Or.inr (List.mem_flatMap.mpr ⟨f, hf, hr⟩)
  · intro files hne
    cases files with
    | nil => exact absurd rfl hne
    | cons first rest => rfl

/-- C8 amended witness: the wide row of the second concrete table is kept
verbatim in the merged output. -/
theorem c8_amended_concatenation_witness :
    ["r2", "b.py", "zzz"] ∈ mergeRepoCsvs [csvA, csvB] :=
  c8_amended_concatenation.1 [csvA, csvB] csvB ["r2", "b.py", "zzz"]
    (by decide) (by decide)

/-- C1 counterexample: through the collect-then-mine pipeline, the only
emitted pair row has support one, computed over the two interface-touching
transactions, although the pair co-occurs twice in a repository of three
non-merge commits, so the denominator is not the full non-merge universe
and support differs from two thirds. -/
theorem c1_counterexample :
    (mineRows (collectTransactions repoG3)).map MineRow.support = [1] ∧
    mineCoCount (collectTransactions repoG3) "a.proto" "x.py" = 2 ∧
    repoG3.commits.length = 3 ∧
    (1 : ℚ) ≠ 2 / 3 := by
  refine ⟨?_, by decide, by decide, by norm_num⟩
  have hk : minePairKeys (collectTransactions repoG3) = [("a.proto", "x.py")] := by decide
  have h1 : mineCoCount (collectTransactions repoG3) "a.proto" "x.py" = 2 := by decide
  have h2 : mineCountFile (collectTransactions repoG3) "a.proto" = 2 := by decide
  have h3 : mineCountFile (collectTransactions repoG3) "x.py" = 2 := by decide
  have h4 : (collectTransactions repoG3).length = 2 := by decide
  rw [mineRows, hk]
  simp only [List.filterMap, mineRowFor, mineMetrics, h1, h2, h3, h4]
  norm_num [MIN_SUPPORT, MIN_CONFIDENCE, MIN_LIFT]

/-- C1 amended: every pair row of compute_pairs_for_repo divides both
support and baseline by the length of the Phase-2 commit list, which is
the full non-merge universe whenever no commit cap is configured. -/
theorem c1_amended_denominators :
    ∀ (m : RepoM) (cfg : RQ0CfgM), ∀ r ∈ (computePairsForRepo m cfg).rows,
      r.n_all_tx = (listAllNonMergeCommits m cfg.max_all_commits).length ∧
      (cfg.max_all_commits = none → r.n_all_tx = m.commits.length) ∧
      r.support = (if r.n_all_tx = 0 then (0 : ℚ)
        else (r.n_both_tx : ℚ) / (r.n_all_tx : ℚ)) ∧
      r.baseline = (if r.n_all_tx = 0 then (0 : ℚ)
        else (r.n_file_tx : ℚ) / (r.n_all_tx : ℚ)) := by
  intro m cfg r hr
  rw [mem_rows_iff] at hr
  obtain ⟨pf, hpf, rfl⟩ := hr
  refine ⟨rfl, ?_, rfl, rfl⟩
  intro hcap
  show nAllTx m cfg = m.commits.length
  rw [nAllTx, hcap]
  rfl

/-- C1 amended witness: the one-commit repository instantiates the
denominator identities with an uncapped universe of size one. -/
theorem c1_amended_denominators_witness :
    rowW.support = (if rowW.n_all_tx = 0 then (0 : ℚ)
      else (rowW.n_both_tx : ℚ) / (rowW.n_all_tx : ℚ)) ∧ rowW.n_all_tx = 1 :=
  ⟨(c1_amended_denominators repoW cfgDefault rowW
      (mem_rows_iff.mpr ⟨pfW, by decide, rfl⟩)).2.2.1, by decide⟩

/-- C2: every observed pair yields a row; in a row the guarded ratios
return zero on a zero denominator (empty Phase-2 universe zeroes support
and baseline, a zero per-proto count zeroes confidence, a zero baseline
zeroes lift) and the co-occurrence count is positive; in the mining
script the zero-divisor guard never drops an observed pair, because both
of its supports are provably nonzero. -/
theorem c2_zero_denominator_policy :
    (∀ (m : RepoM) (cfg : RQ0CfgM), ∀ r ∈ (computePairsForRepo m cfg).rows,
      (r.n_all_tx = 0 → r.support = 0 ∧ r.baseline = 0) ∧
      (r.n_proto_tx_for_proto = 0 → r.confidence = 0) ∧
      (r.baseline = 0 → r.lift = 0) ∧
      0 < r.n_both_tx) ∧
    (∀ (m : RepoM) (cfg : RQ0CfgM) (pf : String × String), pf ∈ candPairs m cfg →
      ∃ r ∈ (computePairsForRepo m cfg).rows, r.proto_file = pf.1 ∧ r.file = pf.2) ∧
    (∀ (txs : List (List String)) (pf : String × String), pf ∈ minePairKeys txs →
      ¬((mineCountFile txs pf.1 : ℚ) / (txs.length : ℚ) = 0 ∨
        (mineCountFile txs pf.2 : ℚ) / (txs.length : ℚ) = 0)) := by
  refine ⟨?_, ?_, ?_⟩
  · intro m cfg r hr
    rw [mem_rows_iff] at hr
    obtain ⟨pf, hpf, rfl⟩ := hr
    simp only [mkRow]
    refine ⟨?_, ?_, ?_, nBothTx_pos hpf⟩
    · intro h0
      exact ⟨by rw [supportQ, if_pos h0], by rw [baselineQ, if_pos h0]⟩
    · intro h0
      rw [confidenceQ, if_pos h0]
    · intro h0
      rw [liftQ, if_neg]
      rw [h0]
      exact lt_irrefl 0
  · intro m cfg pf hpf
    exact ⟨mkRow m cfg pf, mem_rows_iff.mpr ⟨pf, hpf, rfl⟩, rfl, rfl⟩
  · intro txs pf hpf
    exact mine_guard_false hpf

/-- C2 witness: with a configured cap of zero the Phase-2 universe is
empty while the pair is still observed, and its row reports zero support
and baseline. -/
theorem c2_zero_denominator_policy_witness :
    rowZ.support = 0 ∧ rowZ.baseline = 0 :=
  (c2_zero_denominator_policy.1 repoZ cfgZeroCap rowZ
    (mem_rows_iff.mpr ⟨("a.proto", "x.py"), by decide, rfl⟩)).1 (by decide)

/-- C5 counterexample: compute_pairs_for_repo keeps a row whose
confidence is below the default minimum confidence threshold, so the pair
table of the repository pass is not threshold-filtered. -/
theorem c5_counterexample :
    row4 ∈ (computePairsForRepo repo4 cfgDefault).rows ∧
    row4.confidence < MIN_CONFIDENCE := by
  constructor
  · exact mem_rows_iff.mpr ⟨("a.proto", "x.py"), by decide, rfl⟩
  · have hb : nBothTx repo4 cfgDefault "a.proto" "x.py" = 1 := by decide
    have hp : nProtoTx repo4 cfgDefault "a.proto" = 4 := by decide
    show confidenceQ repo4 cfgDefault ("a.proto", "x.py") < MIN_CONFIDENCE
    simp only [confidenceQ, hb, hp]
    norm_num [MIN_CONFIDENCE]

/-- C5 amended: compute_pairs_for_repo emits every observed pair with no
threshold filter, while the mining script keeps an observed pair exactly
when its support, confidence and lift reach the default minimums; on the
counters of the specification example the metrics are one percent, one
half, fifteen thousandths and one hundred thirds, all passing. -/
theorem c5_amended_thresholds :
    (∀ (m : RepoM) (cfg : RQ0CfgM) (pf : String × String), pf ∈ candPairs m cfg →
      ∃ r ∈ (computePairsForRepo m cfg).rows, r.proto_file = pf.1 ∧ r.file = pf.2) ∧
    (∀ (txs : List (List String)) (p f : String), (p, f) ∈ minePairKeys txs →
      ((mineRowFor txs (p, f)).isSome = true ↔
        (MIN_SUPPORT ≤ (mineMetrics txs.length (mineCoCount txs p f)
            (mineCountFile txs p) (mineCountFile txs f)).1 ∧
         MIN_CONFIDENCE ≤ (mineMetrics txs.length (mineCoCount txs p f)
            (mineCountFile txs p) (mineCountFile txs f)).2.2.1 ∧
         MIN_LIFT ≤ (mineMetrics txs.length (mineCoCount txs p f)
            (mineCountFile txs p) (mineCountFile txs f)).2.2.2))) ∧
    mineMetrics 1000 10 20 15 =
      ((1 : ℚ) / 100, (3 : ℚ) / 200, (1 : ℚ) / 2, (100 : ℚ) / 3) ∧
    (MIN_SUPPORT ≤ (1 : ℚ) / 100 ∧ MIN_CONFIDENCE ≤ (1 : ℚ) / 2 ∧
      MIN_LIFT ≤ (100 : ℚ) / 3) := by
  refine ⟨?_, ?_, ?_, ?_⟩
  · intro m cfg pf hpf
    exact ⟨mkRow m cfg pf, mem_rows_iff.mpr ⟨pf, hpf, rfl⟩, rfl, rfl⟩
  · intro txs p f h
    exact mineRowFor_isSome_iff h
  · simp only [mineMetrics, Prod.mk.injEq]
    norm_num
  · norm_num [MIN_SUPPORT, MIN_CONFIDENCE, MIN_LIFT]

/-- C5 amended witness: the keep-iff-thresholds half instantiated on the
observed pair of the concrete mined transactions. -/
theorem c5_amended_thresholds_witness :
    (mineRowFor (collectTransactions repoG3) ("a.proto", "x.py")).isSome = true ↔
      (MIN_SUPPORT ≤ (mineMetrics (collectTransactions repoG3).length
          (mineCoCount (collectTransactions repoG3) "a.proto" "x.py")
          (mineCountFile (collectTransactions repoG3) "a.proto")
          (mineCountFile (collectTransactions repoG3) "x.py")).1 ∧
       MIN_CONFIDENCE ≤ (mineMetrics (collectTransactions repoG3).length
          (mineCoCount (collectTransactions repoG3) "a.proto" "x.py")
          (mineCountFile (collectTransactions repoG3) "a.proto")
          (mineCountFile (collectTransactions repoG3) "x.py")).2.2.1 ∧
       MIN_LIFT ≤ (mineMetrics (collectTransactions repoG3).length
          (mineCoCount (collectTransactions repoG3) "a.proto" "x.py")
          (mineCountFile (collectTransactions repoG3) "a.proto")
          (mineCountFile (collectTransactions repoG3) "x.py")).2.2.2) :=
  c5_amended_thresholds.2.1 (collectTransactions repoG3) "a.proto" "x.py" (by decide)

/-- C6 counterexample: under a Phase-2 commit cap of one, the emitted row
of the two-commit repository has a per-proto count and a co-occurrence
count of two against a universe and file count of one, so two of the
claimed counter inequalities fail and the support exceeds one. -/
theorem c6_counterexample :
    rowCap ∈ (computePairsForRepo repoCap cfgCap1).rows ∧
    rowCap.n_both_tx = 2 ∧ rowCap.n_proto_tx_for_proto = 2 ∧
    rowCap.n_all_tx = 1 ∧ rowCap.n_file_tx = 1 ∧
    ¬(rowCap.n_proto_tx_for_proto ≤ rowCap.n_all_tx) ∧
    ¬(rowCap.n_both_tx ≤ rowCap.n_file_tx) ∧
    1 < rowCap.support := by
  refine ⟨mem_rows_iff.mpr ⟨("a.proto", "x.py"), by decide, rfl⟩,
    by decide, by decide, by decide, by decide, by decide, by decide, ?_⟩
  have hb : nBothTx repoCap cfgCap1 "a.proto" "x.py" = 2 := by decide
  have ha : nAllTx repoCap cfgCap1 = 1 := by decide
  show 1 < supportQ repoCap cfgCap1 ("a.proto", "x.py")
  simp only [supportQ, hb, ha]
  norm_num

/-- C6 amended: when no Phase-2 commit cap is configured, both counting
passes range over the same non-merge universe and every emitted row
satisfies the counter chain and the metric bounds of the claim. -/
theorem c6_amended_invariants :
    ∀ (m : RepoM) (cfg : RQ0CfgM), cfg.max_all_commits = none →
      ∀ r ∈ (computePairsForRepo m cfg).rows,
        r.n_both_tx ≤ r.n_proto_tx_for_proto ∧
        r.n_proto_tx_for_proto ≤ r.n_all_tx ∧
        r.n_both_tx ≤ r.n_file_tx ∧
        r.n_file_tx ≤ r.n_all_tx ∧
        0 ≤ r.support ∧ r.support ≤ 1 ∧
        0 ≤ r.confidence ∧ r.confidence ≤ 1 ∧
        0 ≤ r.baseline ∧ r.baseline ≤ 1 ∧
        0 ≤ r.lift := by
  intro m cfg hcap r hr
  rw [mem_rows_iff] at hr
  obtain ⟨pf, hpf, rfl⟩ := hr
  simp only [mkRow]
  have h1 : nBothTx m cfg pf.1 pf.2 ≤ nProtoTx m cfg pf.1 := nBothTx_le_nProtoTx
  have h2 : nProtoTx m cfg pf.1 ≤ nAllTx m cfg := by
    rw [nAllTx, hcap]
    exact nProtoTx_le_commits
  have h3 : nBothTx m cfg pf.1 pf.2 ≤ nFileTx m cfg pf.2 := nBothTx_le_nFileTx hcap hpf
  have h4 : nFileTx m cfg pf.2 ≤ nAllTx m cfg := nFileTx_le_nAllTx
  refine ⟨h1, h2, h3, h4, ?_, ?_, ?_, ?_, ?_, ?_, ?_⟩
  · rw [supportQ]
    exact ratioNat_nonneg _ _
  · rw [supportQ]
    exact ratioNat_le_one (le_trans h1 h2)
  · rw [confidenceQ]
    exact ratioNat_nonneg _ _
  · rw [confidenceQ]
    exact ratioNat_le_one h1
  · rw [baselineQ]
    exact ratioNat_nonneg _ _
  · rw [baselineQ]
    exact ratioNat_le_one h4
  · refine liftQ_nonneg ?_
    rw [confidenceQ]
    exact ratioNat_nonneg _ _

/-- C6 amended witness: the uncapped one-commit repository instantiates
the bounds; its row has support and confidence at most one. -/
theorem c6_amended_invariants_witness :
    rowW.support ≤ 1 ∧ rowW.confidence ≤ 1 :=
  have h := c6_amended_invariants repoW cfgDefault rfl rowW
    (mem_rows_iff.mpr ⟨pfW, by decide, rfl⟩)
  ⟨h.2.2.2.2.2.1, h.2.2.2.2.2.2.2.1⟩

/-- C10: in every emitted pair row, whatever the commit cap, the
co-occurrence count is between one and the per-proto transaction count
(both are Phase-1 counters incremented in the same commit iteration), so
the confidence lies in the half-open unit interval, and the co-change
file never carries the interface suffix. -/
theorem c10_confidence_bounds :
    ∀ (m : RepoM) (cfg : RQ0CfgM), ∀ r ∈ (computePairsForRepo m cfg).rows,
      1 ≤ r.n_both_tx ∧ r.n_both_tx ≤ r.n_proto_tx_for_proto ∧
      0 < r.confidence ∧ r.confidence ≤ 1 ∧
      endsProtoLower r.file = false := by
  intro m cfg r hr
  rw [mem_rows_iff] at hr
  obtain ⟨pf, hpf, rfl⟩ := hr
  simp only [mkRow]
  have hpos : 0 < nBothTx m cfg pf.1 pf.2 := nBothTx_pos hpf
  have h1 : nBothTx m cfg pf.1 pf.2 ≤ nProtoTx m cfg pf.1 := nBothTx_le_nProtoTx
  refine ⟨hpos, h1, ?_, ?_, ?_⟩
  · rw [confidenceQ]
    exact ratioNat_pos hpos h1
  · rw [confidenceQ]
    exact ratioNat_le_one h1
  · obtain ⟨c, hc, hp, hf⟩ := mem_candPairs.mp hpf
    exact not_proto_of_mem_cochange hf

/-- C10 witness: the one-commit repository row has positive confidence
and a non-proto co-change file, and even the capped two-commit row keeps
its confidence in the unit interval. -/
theorem c10_confidence_bounds_witness :
    (0 < rowW.confidence ∧ endsProtoLower rowW.file = false) ∧
    rowCap.confidence ≤ 1 :=
  ⟨(fun h => ⟨h.2.2.1, h.2.2.2.2⟩)
      (c10_confidence_bounds repoW cfgDefault rowW
        (mem_rows_iff.mpr ⟨pfW, by decide, rfl⟩)),
    (c10_confidence_bounds repoCap cfgCap1 rowCap
      (mem_rows_iff.mpr ⟨("a.proto", "x.py"), by decide, rfl⟩)).2.2.2.1⟩

/-- C7 counterexample: a repository whose second commit cannot be
resolved makes the whole pair computation return the error (the pass
aborts and the surviving first commit contributes nothing), while the
GitPython collector catches the same failure at the repository boundary
and returns an empty transaction list; had the failing commit been
absent, the pass would have produced one pair. -/
theorem c7_counterexample :
    computePairsE repoE7 cfgDefault = .error "git failed" ∧
    collectForRepoE repoGE7 = [] ∧
    (computePairsForRepo repoW cfgDefault).n_pairs = 1 := by
  refine ⟨rfl, by decide, by decide⟩

/-- C7 amended: per-commit history errors are not contained inside the
repository pass: any unresolvable Phase-1 commit makes
compute_pairs_for_repo fail as a whole, a pass whose commits all resolve
succeeds, and in the GitPython collector any unresolvable commit empties
the whole repository's transaction list. -/
theorem c7_amended_propagation :
    (∀ (m : RepoE) (cfg : RQ0CfgM),
      (∃ c ∈ m.protoCommits, okE (m.changedE c) = false) →
      okE (computePairsE m cfg) = false) ∧
    (∀ (m : RepoE) (cfg : RQ0CfgM),
      (∀ c ∈ m.protoCommits, okE (m.changedE c) = true) →
      (∀ c ∈ m.commits, okE (m.changedE c) = true) →
      okE (computePairsE m cfg) = true) ∧
    (∀ g : RepoGE, (∃ c ∈ g.commits, okE (g.changedE c) = false) →
      collectForRepoE g = []) := by
  refine ⟨?_, ?_, ?_⟩
  · intro m cfg h
    have hm : okE (mapE (filteredFilesE m cfg) m.protoCommits) = false := by
      apply okE_mapE_false
      obtain ⟨c, hc, hcf⟩ := h
      refine ⟨c, hc, ?_⟩
      rw [okE_filteredFilesE]
      exact hcf
    obtain ⟨e, he⟩ := eq_error_of_okE_false hm
    simp only [computePairsE, he, okE]
  · intro m cfg h1 h2
    have hm1 : okE (mapE (filteredFilesE m cfg) m.protoCommits) = true := by
      apply okE_mapE_true
      intro c hc
      rw [okE_filteredFilesE]
      exact h1 c hc
    cases hm : mapE (filteredFilesE m cfg) m.protoCommits with
    | error e =>
      rw [hm] at hm1
      simp [okE] at hm1
    | ok protoFiles =>
      simp only [computePairsE, hm]
      split
      · next e heq =>
        exfalso
        split at heq
        · cases heq
        · have hok : okE (mapE (filteredFilesE m cfg)
              (match cfg.max_all_commits with
                | none => m.commits
                | some k => m.commits.take k)) = true := by
            apply okE_mapE_true
            intro c hc
            rw [okE_filteredFilesE]
            apply h2
            revert hc
            cases cfg.max_all_commits with
            | none => exact fun hc => hc
            | some k => exact fun hc => List.mem_of_mem_take hc
          rw [heq] at hok
          simp [okE] at hok
      · next allFiles heq => simp [okE]
  · intro g h
    have hm : okE (mapE g.changedE g.commits) = false := okE_mapE_false _ _ h
    obtain ⟨e, he⟩ := eq_error_of_okE_false hm
    simp only [collectForRepoE, collectTransactionsE, he]

/-- C7 amended witness: the concrete failing repository drives the first
part, and the one-commit fallible repository with total resolution drives
the second. -/
theorem c7_amended_propagation_witness :
    okE (computePairsE repoE7 cfgDefault) = false ∧
    collectForRepoE repoGE7 = [] :=
  ⟨c7_amended_propagation.1 repoE7 cfgDefault ⟨"c2", by decide, by decide⟩,
   c7_amended_propagation.2.2 repoGE7 ⟨"c2", by decide, by decide⟩⟩
